import Mathlib

/-!
Shallow embedding of the HTTP/1.1 server in `src/app` (request parser,
response serializer with compression negotiation, route handlers, router,
and the per-connection request loop), together with proofs of the spec's
claims about it.

Python strings are modelled as `List Char` (`PyStr`), byte strings as
`List Nat` with values below 256.  Python's ordered `dict` is modelled as
an association list where insertion overwrites in place and fresh keys are
appended at the end, exactly as CPython dicts behave observably.
-/

set_option linter.unusedVariables false

abbrev PyStr := List Char

abbrev Bytes := List Nat

/-- Python `str.isspace` for the characters relevant here (ASCII whitespace
and the Unicode whitespace code points recognised by CPython). -/
def isPySpace (c : Char) : Bool :=
  (9 ≤ c.toNat && c.toNat ≤ 13) || (0x1C ≤ c.toNat && c.toNat ≤ 0x1F) ||
  c.toNat == 32 || c.toNat == 0x85 ||
  c.toNat == 0xA0 || c.toNat == 0x1680 ||
  (0x2000 ≤ c.toNat && c.toNat ≤ 0x200A) || c.toNat == 0x2028 ||
  c.toNat == 0x2029 || c.toNat == 0x202F || c.toNat == 0x205F ||
  c.toNat == 0x3000

/-- Python `str.strip(chars)` generalised over a character predicate:
drop matching characters from both ends. -/
def pyStripBy (p : Char → Bool) (s : PyStr) : PyStr :=
  (((s.dropWhile p).reverse).dropWhile p).reverse

/-- Python `str.strip()` (no argument): strip whitespace from both ends. -/
def pyStrip (s : PyStr) : PyStr := pyStripBy isPySpace s

/-- Python `str.strip("/")`. -/
def stripSlashes (s : PyStr) : PyStr := pyStripBy (fun c => c == '/') s

/-- Python `str.lower()` restricted to ASCII letters (the only characters
the routes in this server use). -/
def toLowerChar (c : Char) : Char :=
  if 65 ≤ c.toNat ∧ c.toNat ≤ 90 then Char.ofNat (c.toNat + 32) else c

/-- Python `str.lower()` applied character-wise. -/
def pyLower (s : PyStr) : PyStr := s.map toLowerChar

/-- Python `str.split(sep)` for a one-character separator: keeps empty
pieces, `"" → [""]`. -/
def splitOnChar (sep : Char) : PyStr → List PyStr
  | [] => [[]]
  | c :: rest =>
    if c = sep then [] :: splitOnChar sep rest
    else
      match splitOnChar sep rest with
      | [] => [[c]]
      | h :: t => (c :: h) :: t

/-- Python `str.split(sep, 1)` for a one-character separator, restricted to
the case where the separator occurs (the source guards with `sep in s`):
returns the pieces before and after the first occurrence. -/
def splitFirstChar (sep : Char) : PyStr → Option (PyStr × PyStr)
  | [] => none
  | c :: rest =>
    if c = sep then some ([], rest)
    else
      match splitFirstChar sep rest with
      | none => none
      | some (a, b) => some (c :: a, b)

/-- Python `s.partition(sep)` for a one-character separator, projected to
the (before, after) components actually used by the source: when the
separator is absent the result is `(s, "")`, exactly as the source
consumes it. -/
def partitionChar (sep : Char) : PyStr → PyStr × PyStr
  | [] => ([], [])
  | c :: rest =>
    if c = sep then ([], rest)
    else
      let p := partitionChar sep rest
      (c :: p.1, p.2)

/-- Python `s.partition("\r\n")` projected to (before, after). -/
def partitionCRLF : PyStr → PyStr × PyStr
  | '\r' :: '\n' :: rest => ([], rest)
  | c :: rest =>
    let p := partitionCRLF rest
    (c :: p.1, p.2)
  | [] => ([], [])

/-- Python `s.partition("\r\n\r\n")` projected to (before, after). -/
def partitionCRLFCRLF : PyStr → PyStr × PyStr
  | '\r' :: '\n' :: '\r' :: '\n' :: rest => ([], rest)
  | c :: rest =>
    let p := partitionCRLFCRLF rest
    (c :: p.1, p.2)
  | [] => ([], [])

/-- Python `s.split("\r\n")`: full split on the two-character separator,
keeping empty pieces. -/
def splitCRLF : PyStr → List PyStr
  | '\r' :: '\n' :: rest => [] :: splitCRLF rest
  | c :: rest =>
    match splitCRLF rest with
    | [] => [[c]]
    | h :: t => (c :: h) :: t
  | [] => [[]]

/-- UTF-8 encoding of a single scalar value. -/
def encodeChar (n : Nat) : Bytes :=
  if n < 0x80 then [n]
  else if n < 0x800 then [0xC0 + n / 64, 0x80 + n % 64]
  else if n < 0x10000 then
    [0xE0 + n / 4096, 0x80 + (n / 64) % 64, 0x80 + n % 64]
  else
    [0xF0 + n / 262144, 0x80 + (n / 4096) % 64, 0x80 + (n / 64) % 64,
     0x80 + n % 64]

/-- Python `str.encode("utf-8")`. -/
def utf8Encode (s : PyStr) : Bytes :=
  (s.map (fun c => encodeChar c.toNat)).flatten

/-- Python `bytes.decode("utf-8")` with strict error handling: rejects
stray continuation bytes, overlong encodings, surrogates and code points
above U+10FFFF; `none` models `UnicodeDecodeError`. -/
def utf8Decode : Bytes → Option PyStr
  | [] => some []
  | b :: rest =>
    if b < 0x80 then
      (utf8Decode rest).map (fun cs => Char.ofNat b :: cs)
    else if b < 0xC2 then none
    else if b < 0xE0 then
      match rest with
      | b1 :: rest1 =>
        if 0x80 ≤ b1 ∧ b1 < 0xC0 then
          (utf8Decode rest1).map
            (fun cs => Char.ofNat ((b - 0xC0) * 64 + (b1 - 0x80)) :: cs)
        else none
      | [] => none
    else if b < 0xF0 then
      match rest with
      | b1 :: b2 :: rest2 =>
        if 0x80 ≤ b1 ∧ b1 < 0xC0 ∧ 0x80 ≤ b2 ∧ b2 < 0xC0 then
          let n := (b - 0xE0) * 4096 + (b1 - 0x80) * 64 + (b2 - 0x80)
          if n < 0x800 ∨ (0xD800 ≤ n ∧ n < 0xE000) then none
          else (utf8Decode rest2).map (fun cs => Char.ofNat n :: cs)
        else none
      | _ => none
    else if b < 0xF5 then
      match rest with
      | b1 :: b2 :: b3 :: rest3 =>
        if 0x80 ≤ b1 ∧ b1 < 0xC0 ∧ 0x80 ≤ b2 ∧ b2 < 0xC0 ∧
           0x80 ≤ b3 ∧ b3 < 0xC0 then
          let n := (b - 0xF0) * 262144 + (b1 - 0x80) * 4096 +
                   (b2 - 0x80) * 64 + (b3 - 0x80)
          if n < 0x10000 ∨ 0x10FFFF < n then none
          else (utf8Decode rest3).map (fun cs => Char.ofNat n :: cs)
        else none
      | _ => none
    else none

/-- Python `dict` insertion `d[k] = v`: overwrite in place if the key is
present, else append at the end (CPython preserves first-insertion order). -/
def dictInsert {α : Type} (k : PyStr) (v : α) : List (PyStr × α) → List (PyStr × α)
  | [] => [(k, v)]
  | (k', v') :: rest =>
    if k' = k then (k, v) :: rest else (k', v') :: dictInsert k v rest

/-- Python `dict.get(k)`: value of the first (unique) entry with key `k`. -/
def dictGet {α : Type} (k : PyStr) : List (PyStr × α) → Option α
  | [] => none
  | (k', v') :: rest => if k' = k then some v' else dictGet k rest

/-- Exception hierarchy of `request_parser.py` as a tagged variant
(`HTTPParseError` subclasses). -/
inductive ParseError where
  | emptyRequest
  | invalidEncoding
  | invalidRequestLine
  | invalidHTTPMethod
  | invalidHeader
  deriving DecidableEq, Repr

deriving instance DecidableEq for Except

/-- SUPPORTED_HTTP_METHODS from `request_parser.py`. -/
def SUPPORTED_HTTP_METHODS : List PyStr :=
  ["GET", "POST", "PUT", "DELETE", "HEAD", "OPTIONS", "PATCH"].map String.data

/-- HTTPRequest dataclass from `http_request.py`. -/
structure HTTPRequest where
  method : PyStr
  path : PyStr
  headers : List (PyStr × PyStr)
  body : PyStr
  route : PyStr
  routeParam : PyStr
  deriving DecidableEq, Repr

/-- Status codes of `http.HTTPStatus` used by this server. -/
inductive Status where
  | ok
  | created
  | badRequest
  | forbidden
  | notFound
  | methodNotAllowed
  | internalServerError
  deriving DecidableEq, Repr

/-- `HTTPStatus.value`. -/
def Status.code : Status → Nat
  | .ok => 200
  | .created => 201
  | .badRequest => 400
  | .forbidden => 403
  | .notFound => 404
  | .methodNotAllowed => 405
  | .internalServerError => 500

/-- `HTTPStatus.phrase`. -/
def Status.phrase : Status → PyStr
  | .ok => "OK".data
  | .created => "Created".data
  | .badRequest => "Bad Request".data
  | .forbidden => "Forbidden".data
  | .notFound => "Not Found".data
  | .methodNotAllowed => "Method Not Allowed".data
  | .internalServerError => "Internal Server Error".data

/-- Payload of `HttpResponse.body`.  The dataclass annotates it `str`, but
Python does not enforce the annotation and `FileHandler._handle_get`
actually stores the `bytes` read from disk there, so the embedding keeps
both possibilities. -/
inductive Body where
  | str (s : PyStr)
  | bytes (b : Bytes)
  deriving DecidableEq, Repr

/-- HttpResponse dataclass from `http_response.py` (headers are a Python
dict, serialized in insertion order). -/
structure HttpResponse where
  status : Status
  headers : List (PyStr × PyStr)
  body : Body
  deriving DecidableEq, Repr

/-- RequestParser._parse_request_line: split on single spaces; fewer than
two components is an error, otherwise the first two components are the
method and the path (anything further, e.g. the HTTP version, is ignored). -/
def parseRequestLine (line : PyStr) : Except ParseError (PyStr × PyStr) :=
  match splitOnChar ' ' line with
  | m :: p :: _ => .ok (m, p)
  | _ => .error .invalidRequestLine

/-- RequestParser._validate_http_method. -/
def validateHttpMethod (method : PyStr) : Except ParseError Unit :=
  if method ∈ SUPPORTED_HTTP_METHODS then .ok () else .error .invalidHTTPMethod

/-- RequestParser._parse_url: strip slashes from both ends of the path,
partition on the first remaining slash, lower-case the first component. -/
def parseUrl (path : PyStr) : PyStr × PyStr :=
  let p := partitionChar '/' (stripSlashes path)
  (pyLower p.1, p.2)

/-- One iteration of the loop in RequestParser._parse_headers: lines with
no colon are skipped, otherwise split at the first colon, strip and
lower-case the key, strip the value, and insert into the dict. -/
def headerStep (d : List (PyStr × PyStr)) (line : PyStr) : List (PyStr × PyStr) :=
  match splitFirstChar ':' line with
  | none => d
  | some (k, v) => dictInsert (pyLower (pyStrip k)) (pyStrip v) d

/-- RequestParser._parse_headers. -/
def parseHeaders (headerString : PyStr) : List (PyStr × PyStr) :=
  (splitCRLF headerString).foldl headerStep []

/-- RequestParser.parse: empty check, UTF-8 decode, split into request
line / header block / body, parse and validate the request line, derive
the route, parse the headers. -/
def parse (rawBytes : Bytes) : Except ParseError HTTPRequest :=
  if rawBytes = [] then .error .emptyRequest
  else
    match utf8Decode rawBytes with
    | none => .error .invalidEncoding
    | some request =>
      let p1 := partitionCRLF request
      let p2 := partitionCRLFCRLF p1.2
      match parseRequestLine p1.1 with
      | .error e => .error e
      | .ok (method, path) =>
        match validateHttpMethod method with
        | .error e => .error e
        | .ok _ =>
          let u := parseUrl path
          .ok ⟨method, path, parseHeaders p2.1, p2.2, u.1, u.2⟩

/-- SUPPORTED_COMPRESSIONS from `http_response.py`. -/
def SUPPORTED_COMPRESSIONS : List PyStr := ["gzip"].map String.data

/-- HttpResponse._negotiate_compression: `None` or an empty header value
selects nothing; otherwise split the header on commas, strip each token,
and take the first token in the supported set. -/
def negotiateCompression (acceptEncoding : Option PyStr) : Option PyStr :=
  match acceptEncoding with
  | none => none
  | some s =>
    if s = [] then none
    else
      (((splitOnChar ',' s).map pyStrip).filter
        (fun c => decide (c ∈ SUPPORTED_COMPRESSIONS))).head?

/-- HttpResponse._encode_content, parameterized by the external gzip
codec `gz`.  Returns the transmitted body bytes together with the header
lines the method appends; a `Body.bytes` payload has no `.encode` method
in Python, so serialization raises (`none`). -/
def encodeContent (gz : Bytes → Bytes) (body : Body) (compression : Option PyStr) :
    Option (Bytes × List PyStr) :=
  match body with
  | .str s =>
    if compression = some ("gzip".data) then
      some (gz (utf8Encode s), [("Content-Encoding: gzip").data])
    else some (utf8Encode s, [])
  | .bytes _ => none

/-- Header serialization `f"{key}: {value}"`. -/
def headerLine (kv : PyStr × PyStr) : PyStr := kv.1 ++ (": ").data ++ kv.2

/-- Status line `f"HTTP/1.1 {value} {phrase}"`. -/
def statusLine (st : Status) : PyStr :=
  ("HTTP/1.1 ").data ++ (Nat.repr st.code).data ++ (" ").data ++ st.phrase

/-- Intermediate state of HttpResponse.to_bytes, parameterized by the gzip
codec: the final `headers_lines` list (response headers, then the
`Content-Encoding` line when compression applied, then `Content-Length`
appended last) and the transmitted body bytes. -/
def toBytesParts (gz : Bytes → Bytes) (r : HttpResponse)
    (compression : Option PyStr) : Option (List PyStr × Bytes) :=
  match encodeContent gz r.body (negotiateCompression compression) with
  | none => none
  | some (bodyContent, extra) =>
    some (r.headers.map headerLine ++ extra ++
      [("Content-Length: ").data ++ (Nat.repr bodyContent.length).data],
      bodyContent)

/-- HttpResponse.to_bytes: join the status line, the header lines and a
final empty part with CRLF, encode, and append the body bytes. -/
def toBytes (gz : Bytes → Bytes) (r : HttpResponse)
    (compression : Option PyStr) : Option Bytes :=
  match toBytesParts gz r compression with
  | none => none
  | some (hs, bodyContent) =>
    some (utf8Encode (List.intercalate ("\r\n").data
      ([statusLine r.status] ++ hs ++ [("\r\n").data])) ++ bodyContent)

/-- Errors raised by FileManager and caught by FileHandler. -/
inductive FileError where
  | security
  | notFound
  deriving DecidableEq, Repr

/-- MAX_FILE_SIZE from `file_manager.py`. -/
def MAX_FILE_SIZE : Nat := 10 * 1024 * 1024

/-- The storage backing the FileManager: a map from resolved file name to
stored bytes. -/
abbrev FileStore := List (PyStr × Bytes)

/-- FileManager._validate_path, parameterized by `resolve`. Modelled from
the spec: `resolve` stands for the external filesystem's path resolution
`(base_dir / filename).resolve()` followed by the confinement check
`relative_to(base_dir)` — it returns the resolved key for a name that
stays within the storage root and `none` for one that escapes it.  The
null-byte rejection is the source's own explicit check. -/
def validatePath (resolve : PyStr → Option PyStr) (filename : PyStr) :
    Option PyStr :=
  if Char.ofNat 0 ∈ filename then none else resolve filename

/-- FileManager.read_file: validate the path, look the file up, and
enforce the size ceiling. -/
def readFile (resolve : PyStr → Option PyStr) (σ : FileStore)
    (filename : PyStr) : Except FileError Bytes :=
  match validatePath resolve filename with
  | none => .error .security
  | some key =>
    match dictGet key σ with
    | none => .error .notFound
    | some content =>
      if MAX_FILE_SIZE < content.length then .error .security
      else .ok content

/-- FileManager.write_file: enforce the size ceiling, validate the path,
store the bytes. -/
def writeFile (resolve : PyStr → Option PyStr) (σ : FileStore)
    (filename : PyStr) (content : Bytes) : Except FileError FileStore :=
  if MAX_FILE_SIZE < content.length then .error .security
  else
    match validatePath resolve filename with
    | none => .error .security
    | some key => .ok (dictInsert key content σ)

/-- FileHandler.handle: dispatch on the HTTP method; GET reads the file
named by route_param (404 when absent, 403 on a security violation), POST
writes the UTF-8 encoded request body (201 on success, 403 on violation),
anything else is 405 with an Allow header. -/
def fileHandle (resolve : PyStr → Option PyStr) (σ : FileStore)
    (req : HTTPRequest) : HttpResponse × FileStore :=
  if req.method = ("GET").data then
    match readFile resolve σ req.routeParam with
    | .ok content =>
      (⟨.ok, [(("Content-Type").data, ("application/octet-stream").data)],
        .bytes content⟩, σ)
    | .error .notFound => (⟨.notFound, [], .str []⟩, σ)
    | .error .security => (⟨.forbidden, [], .str []⟩, σ)
  else if req.method = ("POST").data then
    match writeFile resolve σ req.routeParam (utf8Encode req.body) with
    | .ok σ1 => (⟨.created, [], .str []⟩, σ1)
    | .error _ => (⟨.forbidden, [], .str []⟩, σ)
  else
    (⟨.methodNotAllowed, [(("Allow").data, ("GET, POST").data)], .str []⟩, σ)

/-- RootHandler.handle. -/
def rootHandle (req : HTTPRequest) : HttpResponse := ⟨.ok, [], .str []⟩

/-- EchoHandler.handle: echo route_param as text/plain. -/
def echoHandle (req : HTTPRequest) : HttpResponse :=
  ⟨.ok, [(("Content-Type").data, ("text/plain").data)], .str req.routeParam⟩

/-- UserAgentHandler.handle: return the stripped user-agent header. -/
def userAgentHandle (req : HTTPRequest) : HttpResponse :=
  ⟨.ok, [(("Content-Type").data, ("text/plain").data)],
    .str (pyStrip ((dictGet ("user-agent").data req.headers).getD []))⟩

/-- Router.dispatch over the default route table registered by
HTTPServer._create_default_router ("", "echo", "user-agent", "files");
an unregistered route is 404.  The file handler threads the store. -/
def dispatch (resolve : PyStr → Option PyStr) (σ : FileStore)
    (req : HTTPRequest) : HttpResponse × FileStore :=
  if req.route = [] then (rootHandle req, σ)
  else if req.route = ("echo").data then (echoHandle req, σ)
  else if req.route = ("user-agent").data then (userAgentHandle req, σ)
  else if req.route = ("files").data then fileHandle resolve σ req
  else (⟨.notFound, [], .str []⟩, σ)

/-- HTTPServer._should_close_connection: case-insensitive check of the
request's connection header; on "close" the response headers are updated
with `Connection: close` and the connection is marked for closing. -/
def shouldCloseConnection (req : HTTPRequest) (resp : HttpResponse) :
    HttpResponse × Bool :=
  if pyLower ((dictGet ("connection").data req.headers).getD []) =
      ("close").data then
    (⟨resp.status, dictInsert ("Connection").data ("close").data resp.headers,
      resp.body⟩, true)
  else (resp, false)

/-- The 400 response HTTPServer._handle_connection builds directly on a
parse failure, without consulting the router. -/
def badRequestResponse : HttpResponse :=
  ⟨.badRequest, [], .str (Status.badRequest.phrase)⟩

/-- The request loop of HTTPServer._handle_connection at the level of
structured responses, parameterized by the gzip codec: each element of
`reads` is the byte buffer one `reader.read` returns.  An empty read
means the peer closed and ends the loop; a parse failure sends the
direct 400 — whose str body always serializes — and loops; otherwise the
request is dispatched, the keep-alive decision applied, and the response
serialized with the request's accept-encoding value and sent.  When
serialization raises instead (a bytes body has no `.encode`), the
except-Exception handler sends one best-effort 500 and the connection
closes; otherwise the loop ends (Connection: close) or continues. -/
def runConn (gz : Bytes → Bytes) (resolve : PyStr → Option PyStr)
    (σ : FileStore) : List Bytes → List HttpResponse
  | [] => []
  | raw :: rest =>
    if raw = [] then []
    else
      match parse raw with
      | .error _ => badRequestResponse :: runConn gz resolve σ rest
      | .ok req =>
        let d := dispatch resolve σ req
        let sc := shouldCloseConnection req d.1
        match toBytes gz sc.1
            (dictGet ("accept-encoding").data req.headers) with
        | none => [⟨.internalServerError, [], .str []⟩]
        | some _ =>
          sc.1 :: (if sc.2 then [] else runConn gz resolve d.2 rest)

theorem dictGet_dictInsert_self {α : Type} (k : PyStr) (v : α)
    (d : List (PyStr × α)) : dictGet k (dictInsert k v d) = some v := by
  induction d with
  | nil => simp [dictInsert, dictGet]
  | cons kv rest ih =>
    obtain ⟨k', v'⟩ := kv
    by_cases h : k' = k
    · simp [dictInsert, dictGet, h]
    · simp [dictInsert, dictGet, h, ih]

theorem dictGet_dictInsert_ne {α : Type} {k k' : PyStr} (v : α)
    (d : List (PyStr × α)) (h : k' ≠ k) :
    dictGet k (dictInsert k' v d) = dictGet k d := by
  induction d with
  | nil => simp [dictInsert, dictGet, h]
  | cons kv rest ih =>
    obtain ⟨k0, v0⟩ := kv
    by_cases h0 : k0 = k'
    · subst h0
      simp [dictInsert, dictGet, h]
    · by_cases h1 : k0 = k
      · simp [dictInsert, dictGet, h0, h1, Ne.symm h]
      · simp [dictInsert, dictGet, h0, h1, ih]

theorem getLast?_cons_or {α : Type} (a : α) (l : List α) :
    (a :: l).getLast? = l.getLast?.or (some a) := by
  induction l generalizing a with
  | nil => simp
  | cons b t ih =>
    rw [List.getLast?_cons_cons, ih b]
    cases h : t.getLast? <;> simp [Option.or]

/-- All the header lines of a block that bind a given key, in order, after
key normalisation: the value each such line would store. -/
def headerMatches (key : PyStr) (lines : List PyStr) : List PyStr :=
  lines.filterMap (fun line =>
    (splitFirstChar ':' line).bind (fun kv =>
      if pyLower (pyStrip kv.1) = key then some (pyStrip kv.2) else none))

theorem dictGet_foldl_headerStep (key : PyStr) (lines : List PyStr) :
    ∀ d : List (PyStr × PyStr),
      dictGet key (lines.foldl headerStep d) =
        (headerMatches key lines).getLast?.or (dictGet key d) := by
  induction lines with
  | nil => intro d; simp [headerMatches]
  | cons line rest ih =>
    intro d
    rw [List.foldl_cons, ih]
    cases h : splitFirstChar ':' line with
    | none =>
      have hm : headerMatches key (line :: rest) = headerMatches key rest := by
        simp [headerMatches, h]
      have hstep : headerStep d line = d := by
        simp [headerStep, h]
      rw [hm, hstep]
    | some kv =>
      obtain ⟨k, v⟩ := kv
      by_cases hk : pyLower (pyStrip k) = key
      · have hm : headerMatches key (line :: rest) =
            pyStrip v :: headerMatches key rest := by
          simp [headerMatches, h, hk]
        have hstep : headerStep d line = dictInsert key (pyStrip v) d := by
          simp [headerStep, h, hk]
        rw [hm, getLast?_cons_or, hstep, dictGet_dictInsert_self]
        cases hr : (headerMatches key rest).getLast? <;> simp [Option.or]
      · have hm : headerMatches key (line :: rest) = headerMatches key rest := by
          simp [headerMatches, h, hk]
        have hstep : headerStep d line =
            dictInsert (pyLower (pyStrip k)) (pyStrip v) d := by
          simp [headerStep, h]
        rw [hm, hstep, dictGet_dictInsert_ne _ _ hk]

/-- C7: header parsing splits each line at the first colon, silently skips
lines without one, stores the lower-cased trimmed key with the trimmed
value, and lets a later duplicate key overwrite an earlier one: the value
looked up for any key is exactly the trimmed value of the last header
line whose normalised name is that key (and parsing is total — it returns
a dict for every block). -/
theorem headers_parse_spec (headerString : PyStr) (key : PyStr) :
    dictGet key (parseHeaders headerString) =
      (headerMatches key (splitCRLF headerString)).getLast? := by
  rw [parseHeaders, dictGet_foldl_headerStep]
  cases h : (headerMatches key (splitCRLF headerString)).getLast? <;>
    simp [dictGet, Option.or]

theorem parseRequestLine_cons2 (line : PyStr) (m p : PyStr)
    (rest : List PyStr) (h : splitOnChar ' ' line = m :: p :: rest) :
    parseRequestLine line = .ok (m, p) := by
  rw [parseRequestLine, h]

/-- C10: a request line with at least two space-separated components
parses to (first component, second component), whatever further
components — such as the HTTP version — contain; they are never
inspected. -/
theorem request_line_ignores_version (line : PyStr) (m p : PyStr)
    (rest : List PyStr) (h : splitOnChar ' ' line = m :: p :: rest) :
    parseRequestLine line = .ok (m, p) :=
  parseRequestLine_cons2 line m p rest h

/-- C10 witness: the three request lines of the claim all parse to the
same (method, path), the version token never being validated. -/
theorem request_line_ignores_version_witness :
    parseRequestLine ("GET /path").data = .ok (("GET").data, ("/path").data) ∧
    parseRequestLine ("GET /path HTTP/1.1").data =
      .ok (("GET").data, ("/path").data) ∧
    parseRequestLine ("GET /path NONSENSE extra").data =
      .ok (("GET").data, ("/path").data) := by
  refine ⟨?_, ?_, ?_⟩
  · exact request_line_ignores_version ("GET /path").data ("GET").data
      ("/path").data [] (by decide)
  · exact request_line_ignores_version ("GET /path HTTP/1.1").data ("GET").data
      ("/path").data [("HTTP/1.1").data] (by decide)
  · exact request_line_ignores_version ("GET /path NONSENSE extra").data
      ("GET").data ("/path").data [("NONSENSE").data, ("extra").data]
      (by decide)

theorem parse_decode_some {raw : Bytes} {s : PyStr} (h : ¬raw = [])
    (hd : utf8Decode raw = some s) :
    parse raw =
      match parseRequestLine (partitionCRLF s).1 with
      | .error e => .error e
      | .ok (method, path) =>
        match validateHttpMethod method with
        | .error e => .error e
        | .ok _ =>
          .ok ⟨method, path,
               parseHeaders (partitionCRLFCRLF (partitionCRLF s).2).1,
               (partitionCRLFCRLF (partitionCRLF s).2).2,
               (parseUrl path).1, (parseUrl path).2⟩ := by
  simp [parse, h, hd]

theorem parseRequestLine_error_eq {l : PyStr} {e : ParseError}
    (h : parseRequestLine l = .error e) : e = .invalidRequestLine := by
  rw [parseRequestLine] at h
  split at h
  · cases h
  · injection h with h'
    exact h'.symm

theorem validateHttpMethod_error_eq {m : PyStr} {e : ParseError}
    (h : validateHttpMethod m = .error e) : e = .invalidHTTPMethod := by
  rw [validateHttpMethod] at h
  split at h
  · cases h
  · injection h with h'
    exact h'.symm

/-- C4: parse classifies every failure exactly: empty input gives
EmptyRequestError, non-UTF-8 input gives InvalidEncodingError, a request
line with fewer than two space-separated tokens gives
InvalidRequestLineError, a first token outside the supported method set
gives InvalidHTTPMethodError, otherwise parsing succeeds; no other
failure (in particular InvalidHeaderError) is possible. -/
theorem parse_error_classification (raw : Bytes) :
    (raw = [] → parse raw = .error .emptyRequest) ∧
    (raw ≠ [] → utf8Decode raw = none → parse raw = .error .invalidEncoding) ∧
    (∀ s, raw ≠ [] → utf8Decode raw = some s →
      ((splitOnChar ' ' (partitionCRLF s).1).length < 2 →
        parse raw = .error .invalidRequestLine) ∧
      (∀ m p rest, splitOnChar ' ' (partitionCRLF s).1 = m :: p :: rest →
        (m ∉ SUPPORTED_HTTP_METHODS → parse raw = .error .invalidHTTPMethod) ∧
        (m ∈ SUPPORTED_HTTP_METHODS → ∃ req, parse raw = .ok req))) ∧
    (parse raw ≠ .error .invalidHeader) := by
  refine ⟨?_, ?_, ?_, ?_⟩
  · intro h
    simp [parse, h]
  · intro h hd
    simp [parse, h, hd]
  · intro s h hd
    constructor
    · intro hlen
      rw [parse_decode_some h hd]
      have hpl : parseRequestLine (partitionCRLF s).1 =
          .error .invalidRequestLine := by
        rw [parseRequestLine]
        cases hsp : splitOnChar ' ' (partitionCRLF s).1 with
        | nil => rfl
        | cons a t =>
          cases t with
          | nil => rfl
          | cons b t2 =>
            rw [hsp] at hlen
            simp at hlen
            omega
      rw [hpl]
    · intro m p rest hsp
      constructor
      · intro hm
        rw [parse_decode_some h hd, parseRequestLine_cons2 _ _ _ _ hsp]
        simp [validateHttpMethod, hm]
      · intro hm
        rw [parse_decode_some h hd, parseRequestLine_cons2 _ _ _ _ hsp]
        simp [validateHttpMethod, hm]
  · by_cases h0 : raw = []
    · simp [parse, h0]
    · cases hd : utf8Decode raw with
      | none => simp [parse, h0, hd]
      | some s =>
        rw [parse_decode_some h0 hd]
        cases hpl : parseRequestLine (partitionCRLF s).1 with
        | error e1 =>
          have := parseRequestLine_error_eq hpl
          subst this
          simp
        | ok mp =>
          obtain ⟨m, p⟩ := mp
          cases hv : validateHttpMethod m with
          | error e2 =>
            have := validateHttpMethod_error_eq hv
            subst this
            simp [hv]
          | ok u => simp [hv]

/-- C4 witness: the classification applied to the concrete unsupported
method token TRACE. -/
theorem parse_error_classification_witness :
    parse (utf8Encode ("TRACE / HTTP/1.1\r\n\r\n").data) =
      .error .invalidHTTPMethod := by
  have h := (parse_error_classification
    (utf8Encode ("TRACE / HTTP/1.1\r\n\r\n").data)).2.2.1
    (("TRACE / HTTP/1.1\r\n\r\n").data) (by decide) (by decide)
  exact (h.2 (("TRACE").data) (("/").data) [("HTTP/1.1").data]
    (by decide)).1 (by decide)

theorem head?_filter_eq {α : Type} (p : α → Bool) (l : List α) :
    (l.filter p).head? = l.find? p := by
  induction l with
  | nil => rfl
  | cons a t ih =>
    by_cases h : p a <;> simp [List.filter_cons, List.find?_cons, h, ih]

theorem negotiate_only_gzip (compression : Option PyStr) (t : PyStr)
    (h : negotiateCompression compression = some t) : t = ("gzip").data := by
  cases compression with
  | none => simp [negotiateCompression] at h
  | some a =>
    rw [negotiateCompression] at h
    split at h
    · cases h
    · have hm := List.mem_of_mem_head? (Option.mem_def.mpr h)
      have hp := (List.mem_filter.mp hm).2
      have := of_decide_eq_true hp
      simpa [SUPPORTED_COMPRESSIONS] using this

/-- C6: for a response with the declared string body, serialization emits
a Content-Length header as the last generated header line, its value the
exact byte length of the transmitted body — the compressed length when
compression was negotiated and the raw encoded length otherwise — and the
serialized output is the CRLF-joined status line and headers followed by
exactly that body. -/
theorem content_length_last (gz : Bytes → Bytes) (r : HttpResponse)
    (compression : Option PyStr) (s : PyStr) (hb : r.body = .str s) :
    ∃ hs bodyContent,
      toBytesParts gz r compression = some (hs, bodyContent) ∧
      hs.getLast? = some (("Content-Length: ").data ++
        (Nat.repr bodyContent.length).data) ∧
      bodyContent = (if negotiateCompression compression = some ("gzip").data
        then gz (utf8Encode s) else utf8Encode s) ∧
      toBytes gz r compression =
        some (utf8Encode (List.intercalate ("\r\n").data
          ([statusLine r.status] ++ hs ++ [("\r\n").data])) ++ bodyContent) := by
  by_cases hc : negotiateCompression compression = some ("gzip").data
  · refine ⟨r.headers.map headerLine ++ [("Content-Encoding: gzip").data] ++
      [("Content-Length: ").data ++ (Nat.repr (gz (utf8Encode s)).length).data],
      gz (utf8Encode s), ?_, ?_, ?_, ?_⟩
    · simp [toBytesParts, encodeContent, hb, hc]
    · rw [List.getLast?_concat]
    · simp [hc]
    · simp [toBytes, toBytesParts, encodeContent, hb, hc]
  · refine ⟨r.headers.map headerLine ++
      [("Content-Length: ").data ++ (Nat.repr (utf8Encode s).length).data],
      utf8Encode s, ?_, ?_, ?_, ?_⟩
    · simp [toBytesParts, encodeContent, hb, hc]
    · rw [List.getLast?_concat]
    · simp [hc]
    · simp [toBytes, toBytesParts, encodeContent, hb, hc]

/-- C6 witness: the serialization of a concrete response, with the
identity function standing in for the gzip codec: the Content-Length
line is last and carries the transmitted length. -/
theorem content_length_last_witness :
    toBytesParts id ⟨.ok, [], .str ("abc").data⟩ (some ("gzip").data) =
      some ([("Content-Encoding: gzip").data, ("Content-Length: 3").data],
        utf8Encode ("abc").data) ∧
    [("Content-Encoding: gzip").data, ("Content-Length: 3").data].getLast? =
      some (("Content-Length: ").data ++
        (Nat.repr (utf8Encode ("abc").data).length).data) := by
  obtain ⟨hs, bodyContent, h1, h2, h3, h4⟩ := content_length_last id
    ⟨.ok, [], .str ("abc").data⟩ (some ("gzip").data) ("abc").data rfl
  exact ⟨by decide, by decide⟩

/-- C5: compression negotiation picks the first comma-separated,
whitespace-trimmed token of the acceptEncoding value that belongs to the
supported set (exactly gzip); when gzip is selected the transmitted body
is the gzip compression of the raw body — so decompressing recovers it —
and a Content-Encoding header naming gzip is appended; with no header or
no matching token the body is transmitted uncompressed with no
Content-Encoding header.  The gzip codec is the external `gzip` library,
modelled as an abstract compressor with its decompression inverse. -/
theorem compression_negotiation (gz gunzip : Bytes → Bytes)
    (hinv : ∀ b, gunzip (gz b) = b)
    (r : HttpResponse) (s : PyStr) (hb : r.body = .str s) :
    (negotiateCompression none = none) ∧
    (∀ a : PyStr, negotiateCompression (some a) =
      ((splitOnChar ',' a).map pyStrip).find?
        (fun t => decide (t ∈ SUPPORTED_COMPRESSIONS))) ∧
    (∀ compression t, negotiateCompression compression = some t →
      t = ("gzip").data) ∧
    (∀ compression, negotiateCompression compression = some ("gzip").data →
      toBytesParts gz r compression =
        some (r.headers.map headerLine ++ [("Content-Encoding: gzip").data] ++
          [("Content-Length: ").data ++
            (Nat.repr (gz (utf8Encode s)).length).data], gz (utf8Encode s)) ∧
      gunzip (gz (utf8Encode s)) = utf8Encode s) ∧
    (∀ compression, negotiateCompression compression = none →
      toBytesParts gz r compression =
        some (r.headers.map headerLine ++
          [("Content-Length: ").data ++
            (Nat.repr (utf8Encode s).length).data], utf8Encode s)) := by
  refine ⟨rfl, ?_, negotiate_only_gzip, ?_, ?_⟩
  · intro a
    rw [negotiateCompression]
    split
    · rename_i ha
      subst ha
      decide
    · rw [head?_filter_eq]
  · intro compression hc
    constructor
    · simp [toBytesParts, encodeContent, hb, hc]
    · exact hinv _
  · intro compression hc
    have hne : ¬negotiateCompression compression = some ("gzip").data := by
      rw [hc]
      simp
    simp [toBytesParts, encodeContent, hb, hne]

/-- C5 witness: negotiation and serialization at concrete header values,
with the identity pair standing in for the gzip codec. -/
theorem compression_negotiation_witness :
    negotiateCompression (some (" deflate , gzip ,br").data) =
      some ("gzip").data ∧
    negotiateCompression (some ("br, deflate").data) = none ∧
    toBytesParts id ⟨.ok, [], .str ("abc").data⟩
      (some (" deflate , gzip ,br").data) =
      some ([("Content-Encoding: gzip").data,
        ("Content-Length: 3").data], utf8Encode ("abc").data) := by
  have h := compression_negotiation id id (fun b => rfl)
    ⟨.ok, [], .str ("abc").data⟩ ("abc").data rfl
  refine ⟨by decide, by decide, ?_⟩
  have h4 := (h.2.2.2.1 (some ((" deflate , gzip ,br").data)) (by decide)).1
  simpa using h4

/-- C1: for a file name that stays within the storage root (its resolved
path validates) and a storable body, dispatching a POST for route files
stores the encoded body bytes B and answers 201, and dispatching a GET
for the same name against the resulting store answers 200 with body
exactly B. -/
theorem files_post_get_roundtrip (resolve : PyStr → Option PyStr)
    (σ : FileStore) (key n bodyStr : PyStr) (reqPost reqGet : HTTPRequest)
    (hpm : reqPost.method = ("POST").data)
    (hpr : reqPost.route = ("files").data)
    (hpp : reqPost.routeParam = n)
    (hpb : reqPost.body = bodyStr)
    (hgm : reqGet.method = ("GET").data)
    (hgr : reqGet.route = ("files").data)
    (hgp : reqGet.routeParam = n)
    (hv : validatePath resolve n = some key)
    (hsz : (utf8Encode bodyStr).length ≤ MAX_FILE_SIZE) :
    (dispatch resolve σ reqPost).1.status = .created ∧
    (dispatch resolve (dispatch resolve σ reqPost).2 reqGet).1.status = .ok ∧
    (dispatch resolve (dispatch resolve σ reqPost).2 reqGet).1.body =
      .bytes (utf8Encode bodyStr) := by
  have hw : writeFile resolve σ n (utf8Encode bodyStr) =
      .ok (dictInsert key (utf8Encode bodyStr) σ) := by
    rw [writeFile, if_neg (by omega), hv]
  have hrd : readFile resolve (dictInsert key (utf8Encode bodyStr) σ) n =
      .ok (utf8Encode bodyStr) := by
    simp only [readFile, hv, dictGet_dictInsert_self]
    rw [if_neg (by omega)]
  have hpost : dispatch resolve σ reqPost =
      (⟨.created, [], .str []⟩, dictInsert key (utf8Encode bodyStr) σ) := by
    rw [dispatch, if_neg (by rw [hpr]; decide), if_neg (by rw [hpr]; decide),
      if_neg (by rw [hpr]; decide), if_pos hpr, fileHandle,
      if_neg (by rw [hpm]; decide), if_pos hpm, hpp, hpb, hw]
  rw [hpost]
  have hget : dispatch resolve (dictInsert key (utf8Encode bodyStr) σ) reqGet =
      (⟨.ok, [(("Content-Type").data, ("application/octet-stream").data)],
        .bytes (utf8Encode bodyStr)⟩, dictInsert key (utf8Encode bodyStr) σ) := by
    rw [dispatch, if_neg (by rw [hgr]; decide), if_neg (by rw [hgr]; decide),
      if_neg (by rw [hgr]; decide), if_pos hgr, fileHandle, if_pos hgm,
      hgp, hrd]
  rw [hget]
  exact ⟨rfl, rfl, rfl⟩

/-- Concrete POST request used by the round-trip witness. -/
def reqPostW : HTTPRequest :=
  ⟨("POST").data, ("/files/f.txt").data, [], ("abc").data,
    ("files").data, ("f.txt").data⟩

/-- Concrete GET request used by the round-trip witness. -/
def reqGetW : HTTPRequest :=
  ⟨("GET").data, ("/files/f.txt").data, [], [],
    ("files").data, ("f.txt").data⟩

/-- C1 witness: a concrete POST-then-GET round trip through the store,
with identity path resolution. -/
theorem files_post_get_roundtrip_witness :
    (dispatch (fun n => some n) [] reqPostW).1.status = .created ∧
    (dispatch (fun n => some n)
      (dispatch (fun n => some n) [] reqPostW).2 reqGetW).1.status = .ok ∧
    (dispatch (fun n => some n)
      (dispatch (fun n => some n) [] reqPostW).2 reqGetW).1.body =
      .bytes (utf8Encode ("abc").data) :=
  files_post_get_roundtrip (fun n => some n) [] (("f.txt").data)
    (("f.txt").data) (("abc").data) reqPostW reqGetW
    rfl rfl rfl rfl rfl rfl rfl (by decide) (by decide)

/-- C8 (amended): for a successfully parsed request whose keep-alive
adjusted response serializes — as every response with the declared str
body does — a connection header whose lower-cased value is close makes
the loop send the dispatched response with a Connection close header
injected and then terminate, while any other value or its absence leaves
the response headers untouched and the loop continues with the remaining
reads.  When the response fails to serialize instead (a bytes body, as a
successful files GET produces, has no `.encode`), the loop sends one
best-effort 500 and terminates even without a close header — the case
refuting the original claim. -/
theorem connection_close_semantics (gz : Bytes → Bytes)
    (resolve : PyStr → Option PyStr)
    (σ : FileStore) (raw : Bytes) (rest : List Bytes) (req : HTTPRequest)
    (hne : raw ≠ []) (hp : parse raw = .ok req) :
    (toBytes gz (shouldCloseConnection req (dispatch resolve σ req).1).1
        (dictGet ("accept-encoding").data req.headers) ≠ none →
      (pyLower ((dictGet ("connection").data req.headers).getD []) =
          ("close").data →
        runConn gz resolve σ (raw :: rest) =
          [⟨(dispatch resolve σ req).1.status,
            dictInsert ("Connection").data ("close").data
              (dispatch resolve σ req).1.headers,
            (dispatch resolve σ req).1.body⟩] ∧
        dictGet ("Connection").data
          (dictInsert ("Connection").data ("close").data
            (dispatch resolve σ req).1.headers) = some (("close").data)) ∧
      (pyLower ((dictGet ("connection").data req.headers).getD []) ≠
          ("close").data →
        runConn gz resolve σ (raw :: rest) =
          (dispatch resolve σ req).1 ::
            runConn gz resolve (dispatch resolve σ req).2 rest)) ∧
    (toBytes gz (shouldCloseConnection req (dispatch resolve σ req).1).1
        (dictGet ("accept-encoding").data req.headers) = none →
      runConn gz resolve σ (raw :: rest) =
        [⟨.internalServerError, [], .str []⟩]) := by
  constructor
  · intro hser
    obtain ⟨out, hout⟩ := Option.ne_none_iff_exists'.mp hser
    constructor
    · intro hclose
      have hsc : shouldCloseConnection req (dispatch resolve σ req).1 =
          (⟨(dispatch resolve σ req).1.status,
            dictInsert ("Connection").data ("close").data
              (dispatch resolve σ req).1.headers,
            (dispatch resolve σ req).1.body⟩, true) := by
        rw [shouldCloseConnection, if_pos hclose]
      rw [hsc] at hout
      have hout2 : toBytes gz
          (⟨(dispatch resolve σ req).1.status,
            dictInsert ("Connection").data ("close").data
              (dispatch resolve σ req).1.headers,
            (dispatch resolve σ req).1.body⟩ : HttpResponse)
          (dictGet ("accept-encoding").data req.headers) = some out := hout
      refine ⟨?_, dictGet_dictInsert_self _ _ _⟩
      simp [runConn, hne, hp, hsc, hout2]
    · intro hopen
      have hsc : shouldCloseConnection req (dispatch resolve σ req).1 =
          ((dispatch resolve σ req).1, false) := by
        rw [shouldCloseConnection, if_neg hopen]
      rw [hsc] at hout
      have hout2 : toBytes gz (dispatch resolve σ req).1
          (dictGet ("accept-encoding").data req.headers) = some out := hout
      simp [runConn, hne, hp, hsc, hout2]
  · intro hnone
    cases hsc : shouldCloseConnection req (dispatch resolve σ req).1 with
    | mk r1 b1 =>
      rw [hsc] at hnone
      have hnone2 : toBytes gz r1
          (dictGet ("accept-encoding").data req.headers) = none := hnone
      simp [runConn, hne, hp, hsc, hnone2]

/-- Concrete request used by the connection-close witness. -/
def reqCloseW : HTTPRequest :=
  ⟨("GET").data, ("/").data, [(("connection").data, ("cLoSe").data)], [],
    [], []⟩

/-- C8 witness: a concrete request carrying Connection: cLoSe, whose
response serializes, terminates the loop with the header injected. -/
theorem connection_close_semantics_witness :
    runConn id (fun n => some n) []
      [utf8Encode ("GET / HTTP/1.1\r\nConnection: cLoSe\r\n\r\n").data,
       utf8Encode ("GET / HTTP/1.1\r\n\r\n").data] =
      [⟨(dispatch (fun n => some n) [] reqCloseW).1.status,
        dictInsert ("Connection").data ("close").data
          (dispatch (fun n => some n) [] reqCloseW).1.headers,
        (dispatch (fun n => some n) [] reqCloseW).1.body⟩] := by
  exact ((((connection_close_semantics id (fun n => some n) []
    (utf8Encode ("GET / HTTP/1.1\r\nConnection: cLoSe\r\n\r\n").data)
    [utf8Encode ("GET / HTTP/1.1\r\n\r\n").data] reqCloseW
    (by decide) (by decide)).1 (by decide)).1) (by decide)).1

/-- C8 counterexample: a successful GET for an existing file parses with
no connection header, yet the loop does not return to awaiting the next
request: the dispatched 200 carries a bytes body, serialization raises,
and the loop ends with a bare 500 — while the same following request on
its own connection would have been served. -/
theorem connection_close_cex :
    runConn id (fun n => some n) [(("f.txt").data, utf8Encode ("abc").data)]
      [utf8Encode ("GET /files/f.txt HTTP/1.1\r\nHost: x\r\n\r\n").data,
       utf8Encode ("GET /echo/hi HTTP/1.1\r\n\r\n").data] =
      [⟨.internalServerError, [], .str []⟩] ∧
    (parse (utf8Encode
        ("GET /files/f.txt HTTP/1.1\r\nHost: x\r\n\r\n").data)).toOption.map
      (fun r => dictGet ("connection").data r.headers) = some none ∧
    runConn id (fun n => some n) [(("f.txt").data, utf8Encode ("abc").data)]
      [utf8Encode ("GET /echo/hi HTTP/1.1\r\n\r\n").data] =
      [⟨.ok, [(("Content-Type").data, ("text/plain").data)],
        .str ("hi").data⟩] := by decide

/-- C9: a non-empty read whose parse fails makes the loop send the
directly-built 400 Bad Request response (the router is never consulted:
the store is untouched) and continue with the remaining reads, so a
following valid request on the same connection is still served. -/
theorem parse_failure_bad_request (gz : Bytes → Bytes)
    (resolve : PyStr → Option PyStr)
    (σ : FileStore) (raw : Bytes) (rest : List Bytes) (e : ParseError)
    (hne : raw ≠ []) (hp : parse raw = .error e) :
    runConn gz resolve σ (raw :: rest) =
      badRequestResponse :: runConn gz resolve σ rest ∧
    badRequestResponse.status = .badRequest := by
  constructor
  · simp [runConn, hne, hp]
  · rfl

/-- C9 witness: a TRACE request is answered with 400 and the following
valid request on the same connection is still served. -/
theorem parse_failure_bad_request_witness :
    runConn id (fun n => some n) []
      [utf8Encode ("TRACE / HTTP/1.1\r\n\r\n").data,
       utf8Encode ("GET /echo/hi HTTP/1.1\r\n\r\n").data] =
      badRequestResponse ::
        runConn id (fun n => some n) []
          [utf8Encode ("GET /echo/hi HTTP/1.1\r\n\r\n").data] ∧
    runConn id (fun n => some n) []
      [utf8Encode ("GET /echo/hi HTTP/1.1\r\n\r\n").data] =
      [⟨.ok, [(("Content-Type").data, ("text/plain").data)],
        .str ("hi").data⟩] := by
  constructor
  · exact (parse_failure_bad_request id (fun n => some n) []
      (utf8Encode ("TRACE / HTTP/1.1\r\n\r\n").data)
      [utf8Encode ("GET /echo/hi HTTP/1.1\r\n\r\n").data]
      .invalidHTTPMethod (by decide) (by decide)).1
  · decide

theorem char_toNat_ofNat {n : Nat} (h : n.isValidChar) :
    (Char.ofNat n).toNat = n := by
  unfold Char.ofNat
  rw [dif_pos h]
  rfl

theorem toLowerChar_idem (c : Char) :
    toLowerChar (toLowerChar c) = toLowerChar c := by
  by_cases h : 65 ≤ c.toNat ∧ c.toNat ≤ 90
  · have hv : (c.toNat + 32).isValidChar := Or.inl (by omega)
    have hin : toLowerChar c = Char.ofNat (c.toNat + 32) := by
      rw [toLowerChar, if_pos h]
    rw [hin, toLowerChar, char_toNat_ofNat hv, if_neg (by omega)]
  · have hin : toLowerChar c = c := by
      rw [toLowerChar, if_neg h]
    rw [hin]
    exact hin

theorem pyLower_idem (s : PyStr) : pyLower (pyLower s) = pyLower s := by
  induction s with
  | nil => rfl
  | cons c t ih =>
    simp only [pyLower, List.map_cons] at *
    rw [toLowerChar_idem]
    exact congrArg _ ih

theorem toLowerChar_eq_slash {c : Char} (h : toLowerChar c = '/') :
    c = '/' := by
  rw [toLowerChar] at h
  split at h
  · rename_i hc
    have hv : (c.toNat + 32).isValidChar := Or.inl (by omega)
    have h2 := congrArg Char.toNat h
    rw [char_toNat_ofNat hv] at h2
    have h47 : ('/').toNat = 47 := rfl
    rw [h47] at h2
    omega
  · exact h

theorem partitionChar_fst_not_mem (sep : Char) (l : PyStr) :
    sep ∉ (partitionChar sep l).1 := by
  induction l with
  | nil => simp [partitionChar]
  | cons c rest ih =>
    by_cases h : c = sep
    · simp [partitionChar, h]
    · simp only [partitionChar, if_neg h, List.mem_cons]
      push_neg
      exact ⟨fun hh => h hh.symm, ih⟩

theorem parse_ok_fields {raw : Bytes} {req : HTTPRequest}
    (h : parse raw = .ok req) :
    req.route = (parseUrl req.path).1 ∧
    req.routeParam = (parseUrl req.path).2 := by
  simp only [parse] at h
  split at h
  · cases h
  · split at h
    · cases h
    · split at h
      · cases h
      · split at h
        · cases h
        · injection h with h'
          subst h'
          exact ⟨rfl, rfl⟩

/-- C3 (amended): for every input on which parse succeeds, the route of
the resulting request is entirely lower-case and contains no slash at all
(hence no leading or trailing slash); route_param may be empty, and — in
contrast to the original claim — it may start with a slash when the path
holds consecutive slashes after the first segment. -/
theorem route_invariant (raw : Bytes) (req : HTTPRequest)
    (h : parse raw = .ok req) :
    pyLower req.route = req.route ∧ '/' ∉ req.route := by
  obtain ⟨hr, _⟩ := parse_ok_fields h
  rw [hr]
  simp only [parseUrl]
  constructor
  · exact pyLower_idem _
  · intro hmem
    simp only [pyLower, List.mem_map] at hmem
    obtain ⟨c, hc, hlc⟩ := hmem
    exact partitionChar_fst_not_mem '/' _ (toLowerChar_eq_slash hlc ▸ hc)

/-- Request parsed from the mixed-case echo wire input of the C3 witness. -/
def reqUpperW : HTTPRequest :=
  ⟨("GET").data, ("/EcHo/x").data, [], [], ("echo").data, ("x").data⟩

/-- C3 witness: the invariant applied to a concrete mixed-case request. -/
theorem route_invariant_witness :
    pyLower reqUpperW.route = reqUpperW.route ∧ '/' ∉ reqUpperW.route :=
  route_invariant (utf8Encode ("GET /EcHo/x HTTP/1.1\r\n\r\n").data)
    reqUpperW (by decide)

/-- C3 counterexample: the path /echo//hi parses successfully to a
request whose route_param is /hi, which starts with a slash — refuting
the original claim that route_param never starts with a slash. -/
theorem route_param_slash_cex :
    (parse (utf8Encode ("GET /echo//hi HTTP/1.1\r\n\r\n").data)).toOption.map
      HTTPRequest.routeParam = some (("/hi").data) ∧
    (("/hi").data).head? = some '/' := by decide

/-- Whether a string contains the CRLF sequence. -/
def containsCRLF : PyStr → Bool
  | '\r' :: '\n' :: _ => true
  | _ :: rest => containsCRLF rest
  | [] => false

theorem partitionChar_append (sep : Char) (A B : PyStr) (h : sep ∉ A) :
    partitionChar sep (A ++ sep :: B) = (A, B) := by
  induction A with
  | nil => simp [partitionChar]
  | cons c t ih =>
    have hc : ¬(c = sep) := by
      intro hh
      subst hh
      exact h (List.mem_cons_self c t)
    have ht : sep ∉ t := fun hh => h (List.mem_cons_of_mem c hh)
    simp [partitionChar, hc, ih ht]

theorem stripSlashes_echo (P : PyStr) (h : P.getLast? ≠ some '/') :
    stripSlashes (("/echo/").data ++ P) =
      if P = [] then ("echo").data else ("echo/").data ++ P := by
  obtain rfl | ⟨Q, c, rfl⟩ := List.eq_nil_or_concat P
  · decide
  · have hcne : c ≠ '/' := by
      simp only [List.concat_eq_append, List.getLast?_concat] at h
      intro hh
      exact h (congrArg some hh)
    have hPne : ¬(Q.concat c = []) := by simp [List.concat_eq_append]
    rw [if_neg hPne, stripSlashes, pyStripBy]
    have h1 : List.dropWhile (fun x => x == '/')
        (("/echo/").data ++ Q.concat c) =
        ("echo/").data ++ Q.concat c := by
      rw [show ("/echo/").data ++ Q.concat c =
        '/' :: (("echo/").data ++ Q.concat c) from rfl]
      rw [List.dropWhile_cons, if_pos (by decide)]
      rw [show ("echo/").data ++ Q.concat c =
        'e' :: (("cho/").data ++ Q.concat c) from rfl]
      rw [List.dropWhile_cons, if_neg (by decide)]
    have h2 : (("echo/").data ++ Q.concat c).reverse =
        c :: (Q.reverse ++ (("echo/").data).reverse) := by
      simp [List.concat_eq_append, List.reverse_append]
    have h3 : List.dropWhile (fun x => x == '/')
        (c :: (Q.reverse ++ (("echo/").data).reverse)) =
        c :: (Q.reverse ++ (("echo/").data).reverse) := by
      rw [List.dropWhile_cons, if_neg (by simp [hcne])]
    rw [h1, h2, h3]
    simp [List.concat_eq_append, List.reverse_append]

theorem parseUrl_echo (P : PyStr) (h : P.getLast? ≠ some '/') :
    parseUrl (("/echo/").data ++ P) = (("echo").data, P) := by
  simp only [parseUrl, stripSlashes_echo P h]
  by_cases hP : P = []
  · subst hP
    rw [if_pos rfl]
    decide
  · rw [if_neg hP]
    rw [show ("echo/").data ++ P = ("echo").data ++ '/' :: P from rfl]
    rw [partitionChar_append '/' (("echo").data) P (by decide)]
    show (pyLower ("echo").data, P) = (("echo").data, P)
    rw [show pyLower ("echo").data = ("echo").data from by decide]

/-- C2 (amended): for every string P that contains no CRLF and does not
end with a slash, a successfully parsed request whose path is /echo/
followed by P dispatches to a 200 text/plain response whose body is
exactly P.  The original claim, which constrained P only by the absence
of CRLF, fails for P ending in a slash because the route derivation
strips trailing slashes from the path. -/
theorem echo_identity (resolve : PyStr → Option PyStr) (σ : FileStore)
    (raw : Bytes) (req : HTTPRequest) (P : PyStr)
    (h : parse raw = .ok req)
    (hpath : req.path = ("/echo/").data ++ P)
    (hcrlf : containsCRLF P = false)
    (hslash : P.getLast? ≠ some '/') :
    (dispatch resolve σ req).1 =
      ⟨.ok, [(("Content-Type").data, ("text/plain").data)], .str P⟩ := by
  obtain ⟨hr, hq⟩ := parse_ok_fields h
  rw [hpath, parseUrl_echo P hslash] at hr hq
  have hr2 : req.route = ("echo").data := hr
  have hq2 : req.routeParam = P := hq
  rw [dispatch, if_neg (by rw [hr2]; decide), if_pos hr2]
  rw [echoHandle, hq2]

/-- Request parsed from the echo wire input of the C2 witness. -/
def reqEchoW : HTTPRequest :=
  ⟨("GET").data, ("/echo/a/b").data, [], [], ("echo").data, ("a/b").data⟩

/-- C2 witness: a concrete echo request whose parameter a/b contains an
interior slash is echoed verbatim. -/
theorem echo_identity_witness :
    (dispatch (fun n => some n) [] reqEchoW).1 =
      ⟨.ok, [(("Content-Type").data, ("text/plain").data)],
        .str ("a/b").data⟩ :=
  echo_identity (fun n => some n) []
    (utf8Encode ("GET /echo/a/b HTTP/1.1\r\n\r\n").data) reqEchoW
    (("a/b").data) (by decide) (by decide) (by decide) (by decide)

/-- C2 counterexample: the valid request GET /echo/hi/ has path /echo/
followed by P = hi/ (a string free of CRLF), yet the dispatched body is
hi, not P — refuting the original identity claim. -/
theorem echo_identity_cex :
    (parse (utf8Encode ("GET /echo/hi/ HTTP/1.1\r\n\r\n").data)).toOption.map
      (fun req => (req.path, (dispatch (fun n => some n) [] req).1.body)) =
      some (("/echo/").data ++ ("hi/").data, Body.str (("hi").data)) ∧
    containsCRLF (("hi/").data) = false ∧
    Body.str (("hi").data) ≠ Body.str (("hi/").data) := by decide
